import Mathlib

/-!
Shallow embedding of the query-time retrieval-and-ranking pipeline of the
`rag-quality-gates` repository, together with proofs of its specified
properties.

Embedded source files:
* `src/rag/rag_pipeline_rest.py`   — the `RAGPipeline` class,
* `src/enhancements/simple_enhancement.py` — the `EnhancedRAG` class,
* `src/evaluation/metrics.py`      — the `RAGMetrics` class.

Modelling conventions:
* Python `float` scores are modelled as `ℚ` (the scores are produced and
  combined by exact additions/multiplications of small constants).
* Python dict payloads with possibly-missing keys are modelled as a
  structure of `Option`-typed fields; `payload.get(k, default)` becomes
  `Option.getD`.
* The external collaborators (sentence-transformers embedder, Qdrant
  client, LLM client) are modelled as `Except String _` outcomes passed
  in as parameters: `.ok` is a normal return, `.error` a raised
  exception.  Python `try/except` around them becomes a `match`.
* Text processing is modelled over ASCII: `str.lower` is `Char.toLower`
  mapped over the characters, regex character classes are maximal runs
  of characters of the class.
-/

namespace RagGates

/-! ## ASCII string primitives -/

/-- Decides whether `pat` is an initial segment of `s` (character lists). -/
def leadsAt : List Char → List Char → Bool
  | [], _ => true
  | _ :: _, [] => false
  | p :: ps, c :: cs => p == c && leadsAt ps cs

/-- Decides whether `pat` occurs contiguously inside `s`; this is Python's
`pat in s` on strings. -/
def hasSub (pat : List Char) : List Char → Bool
  | [] => leadsAt pat []
  | c :: cs => leadsAt pat (c :: cs) || hasSub pat cs

/-- Python's `sub in s` substring test. -/
def strContains (s sub : String) : Bool :=
  hasSub sub.data s.data

/-- Python's `str.lower()` (ASCII model). -/
def lowerStr (s : String) : String :=
  ⟨s.data.map Char.toLower⟩

/-- Characters of a string with surrounding whitespace removed. -/
def stripChars (l : List Char) : List Char :=
  ((l.dropWhile Char.isWhitespace).reverse.dropWhile Char.isWhitespace).reverse

/-- Python's `str.strip()`. -/
def stripStr (s : String) : String :=
  ⟨stripChars s.data⟩

/-- Maximal runs of characters satisfying `p`, with an accumulator for the
current run (reversed).  Models `re.findall` of a character class. -/
def runsAux (p : Char → Bool) : List Char → List Char → List (List Char)
  | [], acc => if acc.isEmpty then [] else [acc.reverse]
  | c :: cs, acc =>
    if p c then runsAux p cs (c :: acc)
    else if acc.isEmpty then runsAux p cs []
    else acc.reverse :: runsAux p cs []

/-- Maximal runs of characters satisfying `p` inside `l`. -/
def runsSplit (p : Char → Bool) (l : List Char) : List (List Char) :=
  runsAux p l []

/-- Word characters of the `\w` regex class (ASCII model). -/
def isWordChar (c : Char) : Bool :=
  c.isAlphanum || c == '_'

/-- Tokens of the regex `\b[a-zA-Z]{3,}\b` applied to `s`: maximal
word-character runs that consist purely of letters and have length at
least 3 (a letter run adjacent to a digit or underscore has no word
boundary and is not matched). -/
def alphaTokens (s : String) : List String :=
  ((runsSplit isWordChar s.data).filter
    (fun r => r.all Char.isAlpha && decide (3 ≤ r.length))).map
    (fun r => ⟨r⟩)

/-- Python's `str.isdigit()` (ASCII model). -/
def isDigitStr (s : String) : Bool :=
  !s.data.isEmpty && s.data.all Char.isDigit

/-- Python list slicing `l[:k]` for an `int` bound `k`: a nonnegative
bound takes the first `k` elements, a negative bound drops `-k` elements
from the end. -/
def pyTake (k : Int) (l : List α) : List α :=
  if 0 ≤ k then l.take k.toNat else l.take ((l.length : Int) + k).toNat

/-! ## Data model (`src/rag/rag_pipeline_rest.py`) -/

/-- The four analysis modes of the pipeline (`AnalysisMode` enum). -/
inductive AnalysisMode where
  | basic
  | standard
  | comprehensive
  | comparative
deriving DecidableEq

/-- The `.value` string of an `AnalysisMode` member. -/
def AnalysisMode.value : AnalysisMode → String
  | .basic => "basic"
  | .standard => "standard"
  | .comprehensive => "comprehensive"
  | .comparative => "comparative"

/-- A stored Qdrant payload: a dict whose keys may be absent (`none`).
Fields mirror the keys read by `_build_search_payload`. -/
structure Payload where
  pid : Option Int := none
  quote : Option String := none
  author : Option String := none
  era : Option String := none
  topic : Option String := none
  context : Option String := none
  source : Option String := none
  tags : Option (List String) := none
  language : Option String := none
  interpretation : Option String := none
  historical_significance : Option String := none
  themes : Option String := none
  key_phrases : Option (List String) := none
  modern_relevance : Option String := none
deriving DecidableEq

/-- A vector-store hit: a payload plus the similarity score reported by
the store (`_hit_payload` / `_hit_score`). -/
structure Hit where
  payload : Payload
  score : ℚ
deriving DecidableEq

/-- A search-result document as built by `_build_search_payload`: every
field is present, defaults filled in. -/
structure Doc where
  did : Option Int
  quote : String
  author : String
  era : String
  topic : String
  context : String
  source : String
  tags : List String
  language : String
  score : ℚ
  interpretation : String
  historical_significance : String
  themes : String
  key_phrases : List String
  modern_relevance : String
deriving DecidableEq

/-- `RAGPipeline._build_search_payload`.  When `include_analysis_fields`
is false the analysis keys are absent from the Python dict; since every
downstream read uses `doc.get(key)` truthiness, an absent key and an
empty default are observationally equal, and we model absence as the
empty default. -/
def build_search_payload (h : Hit) (include_analysis_fields : Bool) : Doc :=
  { did := h.payload.pid
    quote := h.payload.quote.getD ""
    author := h.payload.author.getD "Unknown"
    era := h.payload.era.getD ""
    topic := h.payload.topic.getD ""
    context := h.payload.context.getD ""
    source := h.payload.source.getD ""
    tags := h.payload.tags.getD []
    language := h.payload.language.getD "English"
    score := h.score
    interpretation := if include_analysis_fields then h.payload.interpretation.getD "" else ""
    historical_significance := if include_analysis_fields then h.payload.historical_significance.getD "" else ""
    themes := if include_analysis_fields then h.payload.themes.getD "" else ""
    key_phrases := if include_analysis_fields then h.payload.key_phrases.getD [] else []
    modern_relevance := if include_analysis_fields then h.payload.modern_relevance.getD "" else "" }

/-! ## RAGPipeline helpers (`src/rag/rag_pipeline_rest.py`) -/

/-- Stop-word list of `RAGPipeline._extract_keywords`. -/
def ragStopWords : List String :=
  ["what", "who", "when", "where", "why", "how", "said", "say",
   "about", "some", "the", "a", "an", "and", "or", "but", "in",
   "on", "at", "to", "for", "of", "with", "by", "does", "did",
   "do", "can", "could", "would", "should", "there", "are", "is",
   "was", "were", "jr"]

/-- `RAGPipeline._extract_keywords`: lower-case, tokenize with
`\b[a-zA-Z]{3,}\b`, drop stop words and digit-only tokens, deduplicate.
Python deduplicates with `dict.fromkeys` (keeps first occurrences); only
membership in the result is relied on downstream, and `List.dedup`
preserves membership exactly. -/
def extract_keywords (question : String) : List String :=
  let q := lowerStr question
  let words := alphaTokens q
  (words.filter (fun w => !ragStopWords.contains w && !isDigitStr w)).dedup

/-- Trigger list of `RAGPipeline._question_needs_analysis`. -/
def analysisTriggers : List String :=
  ["mean", "meaning", "interpret", "explain", "significance",
   "historical", "context", "background", "analyze", "analysis",
   "what does", "why did", "how does"]

/-- `RAGPipeline._question_needs_analysis`. -/
def question_needs_analysis (question : String) : Bool :=
  let q := lowerStr question
  analysisTriggers.any (fun t => strContains q t)

/-- The `is_topic_search` condition of `_select_effective_top_k`. -/
def isTopicSearch (q : String) : Bool :=
  strContains q "quotes" &&
    (strContains q "about" || strContains q "are there" ||
     strContains q "some" || strContains q "list")

/-- The `is_exact_or_author` condition of `_select_effective_top_k`:
`question` is the raw input (the quote-character test runs on it),
`q` its lower-cased stripped form. -/
def isExactOrAuthor (question q : String) : Bool :=
  strContains q "who said" ||
  ((strContains q "what did" || strContains q "what was") && !strContains q "quotes") ||
  ((strContains question (String.mk [Char.ofNat 39]) ||
    strContains question (String.mk [Char.ofNat 34])) && !strContains q "quotes") ||
  (strContains q "dream about" && !strContains q "quotes")

/-- `RAGPipeline._select_effective_top_k`. -/
def select_effective_top_k (use_enhanced : Bool) (question : String)
    (requested_top_k : Int) (mode : AnalysisMode) : Int :=
  if !use_enhanced then requested_top_k
  else
    let q := stripStr (lowerStr question)
    if isExactOrAuthor question q && !isTopicSearch q then 1
    else if isTopicSearch q then requested_top_k
    else if mode = AnalysisMode.comprehensive && question_needs_analysis question then
      min (max requested_top_k 2) 3
    else requested_top_k

/-- The lower-cased author/topic/quote/tags blob a document is matched
against in `_apply_enhanced_boosting`. -/
def docBlob (d : Doc) : String :=
  String.intercalate " "
    [lowerStr d.author, lowerStr d.topic, lowerStr d.quote,
     String.intercalate " " (d.tags.map lowerStr)]

/-- Per-document score update of `_apply_enhanced_boosting`: one
`keyword_boost` per extracted keyword occurring in the blob (the Python
`if keywords:` guard is a no-op, since iterating an empty list adds
nothing), then `analysis_doc_boost` if analysis data is present and the
question needs analysis. -/
def boostDocScore (keyword_boost analysis_doc_boost : ℚ)
    (keywords : List String) (needs_analysis : Bool) (d : Doc) : ℚ :=
  let blob := docBlob d
  let s := keywords.foldl
    (fun s kw => if strContains blob kw then s + keyword_boost else s) d.score
  if needs_analysis && (d.interpretation ≠ "" || d.historical_significance ≠ "")
  then s + analysis_doc_boost else s

/-- Python's stable `list.sort(key=score, reverse=True)`: a stable
insertion sort placing a document before the first strictly-lower or
equal-scored document it was originally ahead of. -/
def sortByScoreDesc (docs : List Doc) : List Doc :=
  docs.insertionSort (fun a b => b.score ≤ a.score)

/-- A document with its score replaced by the boosted score (the `d2`
dict of `_apply_enhanced_boosting`). -/
def boostedDoc (keyword_boost analysis_doc_boost : ℚ)
    (keywords : List String) (needs_analysis : Bool) (d : Doc) : Doc :=
  { d with score := boostDocScore keyword_boost analysis_doc_boost keywords needs_analysis d }

/-- `RAGPipeline._apply_enhanced_boosting`. -/
def apply_enhanced_boosting (keyword_boost analysis_doc_boost : ℚ)
    (docs : List Doc) (question : String) (mode : AnalysisMode) : List Doc :=
  if docs.isEmpty then docs
  else
    let keywords := extract_keywords question
    let needs_analysis := mode = AnalysisMode.comprehensive || question_needs_analysis question
    let boosted := docs.map (boostedDoc keyword_boost analysis_doc_boost keywords needs_analysis)
    sortByScoreDesc boosted

/-- `RAGPipeline._select_prompt_method`. -/
def select_prompt_method (mode : AnalysisMode) (docs : List Doc) : String :=
  let has_analysis_fields := docs.any
    (fun d => d.interpretation ≠ "" || d.historical_significance ≠ "")
  if mode = AnalysisMode.comprehensive && has_analysis_fields then
    "format_rag_prompt_with_analysis"
  else if mode = AnalysisMode.standard then "format_rag_prompt"
  else if mode = AnalysisMode.basic then "format_simple_prompt"
  else if mode = AnalysisMode.comparative && decide (2 ≤ docs.length) then "comparative"
  else if has_analysis_fields then "format_rag_prompt_with_analysis"
  else "format_rag_prompt"

/-- `RAGPipeline._generate_comparative_analysis`.  The repository's
`llm_client` does define `compare_quotes`, so the `hasattr` branch is
taken and the comparison text produced by the LLM (abstracted as
`llm_comparison`) is wrapped in the fixed header. -/
def generate_comparative_analysis (llm_comparison : String)
    (docs : List Doc) : String :=
  if docs.length < 2 then "Need at least two quotes for comparative analysis."
  else "Comparative Analysis of Two Key Quotes:\n\n" ++ llm_comparison

/-- The id-deduplication loop of `process_query`: documents whose payload
had no `id` are dropped, and only the first document of each id is kept
(`seen` models the Python `seen_ids` set). -/
def dedupDocsById (docs : List Doc) (seen : List Int) : List Doc :=
  match docs with
  | [] => []
  | d :: rest =>
    match d.did with
    | none => dedupDocsById rest seen
    | some i =>
      if i ∈ seen then dedupDocsById rest seen
      else d :: dedupDocsById rest (i :: seen)

/-- The quote-prefix deduplication loop of `search_quotes`: keyed by the
stripped first 100 characters of the quote; documents with an empty key
are dropped. -/
def dedupDocsByQuote (docs : List Doc) (seen : List String) : List Doc :=
  match docs with
  | [] => []
  | d :: rest =>
    let key := stripStr ⟨d.quote.data.take 100⟩
    if key ≠ "" && !seen.contains key then d :: dedupDocsByQuote rest (key :: seen)
    else dedupDocsByQuote rest seen

/-- Configuration of a `RAGPipeline` instance: the `__init__` keyword
arguments that influence retrieval, with their Python defaults
(`keyword_boost=0.5`, `analysis_doc_boost=0.3`, `use_enhanced=False`). -/
structure RAGConfig where
  collection_name : String := "historical_quotes"
  default_analysis_mode : AnalysisMode := AnalysisMode.standard
  use_enhanced : Bool := false
  keyword_boost : ℚ := 1/2
  analysis_doc_boost : ℚ := 3/10

/-- The module-level singleton `rag_pipeline`. -/
def rag_pipeline : RAGConfig :=
  { default_analysis_mode := AnalysisMode.standard }

/-- The module-level singleton `analysis_pipeline`. -/
def analysis_pipeline : RAGConfig :=
  { default_analysis_mode := AnalysisMode.comprehensive }

/-- The document pipeline of `process_query` on a successful search:
build payloads, drop id-less records, deduplicate by id, optionally
boost and re-rank, then slice to the effective top-k. -/
def processDocs (cfg : RAGConfig) (question : String) (top_k : Int)
    (mode : AnalysisMode) (include_analysis : Bool) (hits : List Hit) : List Doc :=
  let k := select_effective_top_k cfg.use_enhanced question top_k mode
  let docs := dedupDocsById (hits.map (fun h => build_search_payload h include_analysis)) []
  let docs :=
    if cfg.use_enhanced then
      apply_enhanced_boosting cfg.keyword_boost cfg.analysis_doc_boost docs question mode
    else docs
  pyTake k docs

/-- The response dict of `process_query`.  `used_top_k` is `none` when
the key is absent (the error dict); `has_error` models the presence of
the `"error": True` key.  Purely diagnostic keys that no claim reads
(`has_interpretation`, `has_historical_context`, `includes_analysis`,
`prompt_method`) are omitted. -/
structure RAGResponse where
  answer : String
  retrieved_count : Nat
  search_results : List Doc
  analysis_mode : String
  answer_type : String
  used_top_k : Option Int
  has_error : Bool
deriving DecidableEq

/-- The error dict built in the `except` clause of `process_query`. -/
def errorResponse (e : String) : RAGResponse :=
  { answer := "Error during RAG processing: " ++ e
    retrieved_count := 0
    search_results := []
    analysis_mode := "error"
    answer_type := ""
    used_top_k := none
    has_error := true }

/-- `RAGPipeline.process_query`.  The collaborator calls are abstracted
as outcomes: `embed` is the embedder call, `search` the vector-store
query (its hits), `llm` the LLM interaction of whichever prompt branch
runs (prompt formatting plus `generate_response`, or `compare_quotes`).
An `.error` models the collaborator raising; every raise lands in the
single `except` clause, which returns `errorResponse`.  The
`analysis_mode` argument is taken post-parse: the Python string-to-enum
`mode_map.get` lookup is total and falls back to the default mode. -/
def process_query (cfg : RAGConfig) (embed : Except String Unit)
    (search : Except String (List Hit)) (llm : Except String String)
    (question : String) (top_k : Int) (mode : AnalysisMode)
    (include_analysis : Bool) : RAGResponse :=
  match embed with
  | .error e => errorResponse e
  | .ok _ =>
    match search with
    | .error e => errorResponse e
    | .ok hits =>
      match llm with
      | .error e => errorResponse e
      | .ok llmText =>
        let k := select_effective_top_k cfg.use_enhanced question top_k mode
        let docs := processDocs cfg question top_k mode include_analysis hits
        let prompt_method := select_prompt_method mode docs
        if prompt_method = "comparative" then
          { answer := generate_comparative_analysis llmText docs
            retrieved_count := docs.length
            search_results := docs
            analysis_mode := mode.value
            answer_type := "comparative_analysis"
            used_top_k := some k
            has_error := false }
        else
          let answer_type :=
            if prompt_method = "format_rag_prompt_with_analysis" then "comprehensive_analysis"
            else if prompt_method = "format_simple_prompt" then "basic_answer"
            else "standard_answer"
          { answer := llmText
            retrieved_count := docs.length
            search_results := docs
            analysis_mode := mode.value
            answer_type := answer_type
            used_top_k := some k
            has_error := false }

/-- `RAGPipeline.search_quotes`: like `process_query` but deduplicating
by quote prefix, never calling the LLM, and returning `[]` from its
`except` clause. -/
def search_quotes (cfg : RAGConfig) (embed : Except String Unit)
    (search : Except String (List Hit)) (question : String)
    (top_k : Int) : List Doc :=
  match embed with
  | .error _ => []
  | .ok _ =>
    match search with
    | .error _ => []
    | .ok hits =>
      let k := select_effective_top_k cfg.use_enhanced question top_k cfg.default_analysis_mode
      let docs := hits.map (fun h => build_search_payload h true)
      let unique_docs := dedupDocsByQuote docs []
      let unique_docs :=
        if cfg.use_enhanced then
          apply_enhanced_boosting cfg.keyword_boost cfg.analysis_doc_boost unique_docs
            question cfg.default_analysis_mode
        else unique_docs
      pyTake k unique_docs

/-! ## EnhancedRAG (`src/enhancements/simple_enhancement.py`) -/

/-- Query intent as classified by `_extract_keywords_and_intent`. -/
structure Intent where
  interpretation : Bool
  historical : Bool
  comparison : Bool
  qtype : String
deriving DecidableEq

/-- Interpretation trigger words of `_extract_keywords_and_intent`. -/
def interpretationTriggers : List String :=
  ["mean", "meaning", "interpret", "explain", "significance",
   "analyze", "analysis", "what does", "why did", "how does"]

/-- Historical trigger words of `_extract_keywords_and_intent`. -/
def historicalTriggers : List String :=
  ["historical", "history", "context", "background", "era",
   "period", "century", "when", "during", "time"]

/-- Comparison trigger words of `_extract_keywords_and_intent`. -/
def comparisonTriggers : List String :=
  ["compare", "contrast", "difference", "similar", "versus",
   "vs", "between", "both", "each"]

/-- The `author_mappings` dict: canonical author name to alias list, in
insertion order. -/
def authorMappings : List (String × List String) :=
  [("roosevelt", ["franklin", "fdr", "eleanor"]),
   ("martin luther king", ["mlk", "king jr", "martin luther", "dr king"]),
   ("einstein", ["albert"]),
   ("gandhi", ["mahatma"]),
   ("mandela", ["nelson"]),
   ("churchill", ["winston"]),
   ("lincoln", ["abraham"]),
   ("aristotle", []),
   ("confucius", []),
   ("curie", ["marie"]),
   ("da vinci", ["leonardo"]),
   ("newton", ["isaac"]),
   ("edison", ["thomas"]),
   ("armstrong", ["neil"])]

/-- The `topic_mappings` dict: topic to synonym list, in insertion
order. -/
def topicMappings : List (String × List String) :=
  [("fear", ["afraid", "scared", "frightened", "anxiety"]),
   ("dream", ["dreamed", "dreamt", "aspiration", "vision"]),
   ("change", ["transform", "different", "alter", "modify"]),
   ("perseverance", ["persist", "never give up", "keep going", "resilience", "determination"]),
   ("leadership", ["leader", "govern", "government", "authority", "management"]),
   ("imagination", ["imagine", "creative", "creativity", "innovation", "invention"]),
   ("science", ["scientific", "knowledge", "learn", "discovery", "research"]),
   ("courage", ["brave", "bravery", "bold", "fearless", "heroic"]),
   ("equality", ["equal", "rights", "civil rights", "justice", "fairness"]),
   ("freedom", ["free", "liberty", "independence", "autonomy"]),
   ("success", ["achieve", "achievement", "accomplish", "victory", "triumph"]),
   ("failure", ["fail", "mistake", "error", "defeat", "loss"]),
   ("hope", ["hopeful", "optimistic", "expectation", "aspiration"])]

/-- Stop-word set of `_extract_keywords_and_intent`. -/
def enhStopWords : List String :=
  ["what", "who", "when", "where", "why", "how", "said",
   "say", "about", "some", "the", "a", "an", "and", "or",
   "but", "in", "on", "at", "to", "for", "of", "with", "by",
   "does", "did", "do", "can", "could", "would", "should"]

/-- One iteration of the author/topic loops of
`_extract_keywords_and_intent` for the entry `(canonical, variations)`:
if the canonical string occurs in the lower-cased query, append it and
all variations; then, for each variation occurring in the query, append
the canonical string. -/
def mappingStep (query_lower : String) (kws : List String)
    (entry : String × List String) : List String :=
  let kws := if strContains query_lower entry.1 then kws ++ entry.1 :: entry.2 else kws
  entry.2.foldl
    (fun kws v => if strContains query_lower v then kws ++ [entry.1] else kws) kws

/-- The full author or topic loop: a left fold of `mappingStep` over the
mapping entries in dict order. -/
def mappingFold (query_lower : String) (maps : List (String × List String))
    (kws : List String) : List String :=
  maps.foldl (mappingStep query_lower) kws

/-- The residual-noun loop of `_extract_keywords_and_intent`: append
each `\b[a-zA-Z]{3,}\b` token of the lower-cased query that is not a
stop word, not already collected, and not digit-only. -/
def residualFold (query_lower : String) (kws : List String) : List String :=
  (alphaTokens query_lower).foldl
    (fun kws w =>
      if !enhStopWords.contains w && !kws.contains w && !isDigitStr w
      then kws ++ [w] else kws) kws

/-- `EnhancedRAG._extract_keywords_and_intent`.  The Python function
returns `list(set(keywords))`, whose order is unspecified; the model
returns `List.dedup` of the accumulated list, which has exactly the same
membership. -/
def extract_keywords_and_intent (query : String) : List String × Intent :=
  let query_lower := lowerStr query
  let is_interpretation := interpretationTriggers.any (fun w => strContains query_lower w)
  let is_historical := historicalTriggers.any (fun w => strContains query_lower w)
  let is_comparison := comparisonTriggers.any (fun w => strContains query_lower w)
  let kws : List String := []
  let kws := mappingFold query_lower authorMappings kws
  let kws := mappingFold query_lower topicMappings kws
  let kws := residualFold query_lower kws
  (kws.dedup,
   { interpretation := is_interpretation
     historical := is_historical
     comparison := is_comparison
     qtype :=
       if is_interpretation then "interpretation"
       else if is_historical then "historical"
       else if is_comparison then "comparison"
       else "retrieval" })

/-- Score breakdown returned by `_calculate_document_score`. -/
structure ScoreDetails where
  final_score : ℚ
  semantic_score : ℚ
  keyword_score : ℚ
  analysis_boost : ℚ
  intent_boost : ℚ
  matched_keywords : List String
  has_analysis : Bool
deriving DecidableEq

/-- The `doc_content` blob of `_calculate_document_score`. -/
def docContent (p : Payload) : String :=
  lowerStr (p.author.getD "") ++ " " ++ lowerStr (p.topic.getD "") ++ " " ++
    lowerStr (p.quote.getD "")

/-- The keyword-matching loop of `_calculate_document_score`:
one point per keyword occurring in the blob, two extra points for an
author-field match, one extra for a topic-field match; matched keywords
are collected in order. -/
def calcKeywordScore (p : Payload) (keywords : List String) : ℚ × List String :=
  keywords.foldl
    (fun sm kw =>
      if strContains (docContent p) kw then
        let s := sm.1 + 1
        let s := if strContains (lowerStr (p.author.getD "")) kw then s + 2 else s
        let s := if strContains (lowerStr (p.topic.getD "")) kw then s + 1 else s
        (s, sm.2 ++ [kw])
      else sm)
    ((0 : ℚ), ([] : List String))

/-- `EnhancedRAG._calculate_document_score`.  The semantic cosine
similarity is computed by the external embedder and passed in as
`semantic_score`; `analysis_boost_cfg` is the constructor's
`analysis_boost` (default 0.3). -/
def calculate_document_score (analysis_boost_cfg semantic_score : ℚ)
    (p : Payload) (keywords : List String) (intent : Intent) : ScoreDetails :=
  let ks := calcKeywordScore p keywords
  let has_analysis :=
    p.interpretation.getD "" ≠ "" || p.historical_significance.getD "" ≠ ""
  let analysis_boost :=
    if has_analysis then
      if intent.interpretation || intent.historical then analysis_boost_cfg * (3/2)
      else analysis_boost_cfg
    else 0
  let intent_boost :=
    (if intent.interpretation && p.interpretation.getD "" ≠ "" then (1/5 : ℚ) else 0) +
    (if intent.historical && p.historical_significance.getD "" ≠ "" then (1/5 : ℚ) else 0) +
    (if intent.comparison && p.themes.getD "" ≠ "" then (1/10 : ℚ) else 0)
  { final_score := semantic_score * (2/5) + ks.1 * (3/10) + analysis_boost + intent_boost
    semantic_score := semantic_score
    keyword_score := ks.1
    analysis_boost := analysis_boost
    intent_boost := intent_boost
    matched_keywords := ks.2
    has_analysis := has_analysis }

/-! ## RAGMetrics (`src/evaluation/metrics.py`) -/

/-- The `_EN_STOPWORDS` set. -/
def enStopWords : List String :=
  ["the", "a", "an", "and", "or", "but", "if", "then", "else", "so",
   "to", "of", "in", "on", "at", "by", "for", "with", "from", "as",
   "is", "are", "was", "were", "be", "been", "being", "it", "this", "that",
   "these", "those", "i", "you", "we", "they", "he", "she", "them", "him", "her",
   "my", "your", "our", "their", "his", "hers", "ours", "theirs",
   "what", "who", "when", "where", "why", "how", "which",
   "do", "does", "did", "done", "can", "could", "would", "should", "may", "might",
   "not", "no", "yes", "very", "more", "most", "less", "least",
   "about", "into", "over", "under", "again", "also", "than"]

/-- `_clean_text`: strip, then collapse each internal whitespace run to
a single space — equivalently, rejoin the maximal non-whitespace runs
with single spaces. -/
def clean_text (s : String) : String :=
  String.intercalate " "
    ((runsSplit (fun c => !c.isWhitespace) s.data).map (fun r => (⟨r⟩ : String)))

/-- `_tokenize_words`: lower-cased cleaned text, `[a-zA-Z']+` runs of
length at least 3 that are not stop words. -/
def tokenize_words (s : String) : List String :=
  let t := lowerStr (clean_text s)
  ((runsSplit (fun c => c.isAlpha || c == Char.ofNat 39) t.data).map
      (fun r => (⟨r⟩ : String))).filter
    (fun w => decide (3 ≤ w.data.length) && !enStopWords.contains w)

/-- `_extract_numbers`: matches of `\b\d{1,4}\b` in the cleaned text —
maximal word-character runs that are all digits and have length 1 to 4
(longer digit runs, or digits glued to letters, have no matching word
boundary). -/
def extract_numbers (s : String) : List String :=
  ((runsSplit isWordChar (clean_text s).data).filter
    (fun r => !r.isEmpty && r.all Char.isDigit && decide (r.length ≤ 4))).map
    (fun r => ⟨r⟩)

/-- `_context_to_text`: the cleaned concatenation of all textual fields
of the context documents (empty parts dropped by the `if p` filter). -/
def context_to_text (context_docs : List Doc) : String :=
  let parts := context_docs.flatMap
    (fun d => [d.quote, d.author, d.topic, d.era, d.context, d.source,
               d.interpretation, d.historical_significance, d.themes,
               d.modern_relevance, String.intercalate " " d.tags])
  clean_text (String.intercalate " " (parts.filter (fun p => p ≠ "")))

/-- The size of `set(retrieved_ids) & set(expected_ids)` (the
`relevant_retrieved` value of the code): the number of distinct
retrieved ids that also occur among the expected ids. -/
def relevantRetrieved (retrieved_ids expected_ids : List Int) : Nat :=
  (retrieved_ids.dedup.filter (fun x => decide (x ∈ expected_ids))).length

/-- `RAGMetrics.retrieval_precision`: the Python code divides the size
of `set(retrieved_ids) & set(expected_ids)` by the length of the
`retrieved_ids` list. -/
def retrieval_precision (retrieved_ids expected_ids : List Int) : ℚ :=
  if retrieved_ids.isEmpty then 0
  else (relevantRetrieved retrieved_ids expected_ids : ℚ) /
    (retrieved_ids.length : ℚ)

/-- `RAGMetrics.retrieval_recall`: the intersection size divided by the
length of the `expected_ids` list. -/
def retrieval_recall (retrieved_ids expected_ids : List Int) : ℚ :=
  if expected_ids.isEmpty then 0
  else (relevantRetrieved retrieved_ids expected_ids : ℚ) /
    (expected_ids.length : ℚ)

/-- `RAGMetrics.hallucination_score`.  The groundedness value is
computed by `context_grounded_score` from sentence embeddings of an
external model; it is abstracted as the parameter `grounded` (the code
clamps it into `[0, 1]`).  Everything else follows the source: empty
answer scores 0; empty context (or context with no text) scores 0.35;
otherwise a weighted ungroundedness term plus a penalty for answer
numbers missing from the context plus a penalty for answer words missing
from the context, clamped to `[0, 1]` and snapped to 0 below 0.05. -/
def hallucination_score (grounded : ℚ) (generated_answer : String)
    (context_docs : List Doc) : ℚ :=
  if generated_answer = "" then 0
  else if context_docs.isEmpty then 7/20
  else
    let context_text := context_to_text context_docs
    if context_text = "" then 7/20
    else
      let ans_nums := (extract_numbers generated_answer).dedup
      let ctx_nums := extract_numbers context_text
      let missing := ans_nums.filter (fun n => !ctx_nums.contains n)
      let num_penalty : ℚ :=
        if !ans_nums.isEmpty && !missing.isEmpty then
          min (3/10) ((1/10) * (missing.length : ℚ))
        else 0
      let ans_words := tokenize_words generated_answer
      let ctx_words := tokenize_words context_text
      let missing_words := ans_words.filter (fun w => !ctx_words.contains w)
      let word_penalty : ℚ :=
        if !ans_words.isEmpty then
          min (1/4) (((missing_words.length : ℚ) / (max 1 (ans_words.length : ℚ))) * (1/4))
        else 0
      let halluc := (1 - grounded) * (7/20) + num_penalty + word_penalty
      let halluc := max 0 (min 1 halluc)
      if halluc < 1/20 then 0 else halluc

/-! ## Concrete instances used by witnesses and counterexamples -/

/-- A well-formed single hit: id 7, quote "Q", author "A", no analysis
fields. -/
def hit7 : Hit :=
  { payload := { pid := some 7, quote := some "Q", author := some "A" }, score := 9/10 }

/-- A malformed stored record: it has an id but its payload is missing
both the `quote` and the `author` key. -/
def malformedHit : Hit :=
  { payload := { pid := some 1 }, score := 1/2 }

/-- The fallback answer string of the LLM prompt contract. -/
def fallbackAnswer : String :=
  "I cannot find that information in my knowledge base"

/-- Whether a modelled collaborator call raised an exception. -/
def raised : Except String α → Bool
  | .error _ => true
  | .ok _ => false

/-- A payload whose author field matches the keyword "roosevelt". -/
def payload6 : Payload :=
  { pid := some 2, quote := some "Courage quote", author := some "Roosevelt",
    topic := some "courage" }

/-- The document built from `payload6`. -/
def doc6 : Doc :=
  build_search_payload { payload := payload6, score := 1/10 } true

/-- An intent with no flags set (a plain retrieval query). -/
def retrievalIntent : Intent :=
  { interpretation := false, historical := false, comparison := false,
    qtype := "retrieval" }

/-! ## Lemmas about the document pipeline -/

/-- Every document surviving the id-deduplication loop carries an id,
and that id was not in the `seen` set the loop started from. -/
theorem mem_dedupDocsById {docs : List Doc} {seen : List Int} {d : Doc}
    (h : d ∈ dedupDocsById docs seen) : ∃ i, d.did = some i ∧ i ∉ seen := by
  induction docs generalizing seen with
  | nil => simp [dedupDocsById] at h
  | cons d0 rest ih =>
    unfold dedupDocsById at h
    split at h
    next => exact ih h
    next i hd =>
      split at h
      next => exact ih h
      next hi =>
        rcases List.mem_cons.mp h with h1 | h1
        · subst h1; exact ⟨i, hd, hi⟩
        · rcases ih h1 with ⟨j, hj, hjs⟩
          exact ⟨j, hj, fun hmem => hjs (List.mem_cons_of_mem _ hmem)⟩

/-- The id-deduplication loop yields pairwise distinct ids. -/
theorem pairwise_dedupDocsById (docs : List Doc) (seen : List Int) :
    (dedupDocsById docs seen).Pairwise (fun a b => a.did ≠ b.did) := by
  induction docs generalizing seen with
  | nil => simp [dedupDocsById]
  | cons d0 rest ih =>
    unfold dedupDocsById
    split
    next => exact ih seen
    next i hd =>
      split
      next => exact ih seen
      next hi =>
        refine List.Pairwise.cons ?_ (ih (i :: seen))
        intro b hb
        rcases mem_dedupDocsById hb with ⟨j, hj, hjs⟩
        rw [hd, hj]
        intro hc
        apply hjs
        rw [← Option.some.inj hc]
        exact List.mem_cons_self i seen

/-- Boosting re-scores and permutes the documents: the result is a
permutation of the input with each score replaced by its boosted
value. -/
theorem apply_enhanced_boosting_perm (kb ab : ℚ) (docs : List Doc)
    (q : String) (m : AnalysisMode) :
    (apply_enhanced_boosting kb ab docs q m).Perm
      (docs.map (boostedDoc kb ab (extract_keywords q)
        (decide (m = AnalysisMode.comprehensive) || question_needs_analysis q))) := by
  unfold apply_enhanced_boosting
  by_cases h : docs.isEmpty
  · rw [if_pos h]
    have he : docs = [] := List.isEmpty_iff.mp h
    subst he
    simp
  · rw [if_neg h]
    unfold sortByScoreDesc
    exact List.perm_insertionSort _ _

/-- Boosting never invents a document: every output document has the id
of some input document. -/
theorem mem_apply_enhanced_boosting {kb ab : ℚ} {q : String} {m : AnalysisMode}
    {docs : List Doc} {d : Doc}
    (h : d ∈ apply_enhanced_boosting kb ab docs q m) :
    ∃ d0 ∈ docs, d.did = d0.did := by
  have hp := (apply_enhanced_boosting_perm kb ab docs q m).mem_iff.mp h
  rcases List.mem_map.mp hp with ⟨d0, hd0, rfl⟩
  exact ⟨d0, hd0, rfl⟩

/-- Boosting preserves pairwise distinctness of ids. -/
theorem pairwise_did_apply_enhanced_boosting {docs : List Doc}
    (kb ab : ℚ) (q : String) (m : AnalysisMode)
    (h : docs.Pairwise (fun a b => a.did ≠ b.did)) :
    (apply_enhanced_boosting kb ab docs q m).Pairwise (fun a b => a.did ≠ b.did) := by
  refine (((apply_enhanced_boosting_perm kb ab docs q m).pairwise_iff
    (fun hab => fun e => hab e.symm)).mpr ?_)
  rw [List.pairwise_map]
  exact h

/-- A Python slice `l[:k]` is a sublist of `l`. -/
theorem pyTake_sublist (k : Int) (l : List α) : (pyTake k l).Sublist l := by
  unfold pyTake
  split
  · exact List.take_sublist _ _
  · exact List.take_sublist _ _

/-- For a nonnegative slice bound, `l[:k]` has at most `k` elements. -/
theorem length_pyTake_le (k : Int) (l : List α) (hk : 0 ≤ k) :
    ((pyTake k l).length : Int) ≤ k := by
  unfold pyTake
  rw [if_pos hk]
  have h1 : (l.take k.toNat).length ≤ k.toNat := List.length_take_le _ _
  omega

/-- The effective top-k is positive whenever the requested top-k is. -/
theorem select_effective_top_k_pos (ue : Bool) (q : String) (k : Int)
    (m : AnalysisMode) (hk : 1 ≤ k) : 1 ≤ select_effective_top_k ue q k m := by
  unfold select_effective_top_k
  dsimp only
  split_ifs with h1 h2 h3 h4
  · exact hk
  · norm_num
  · exact hk
  · omega
  · exact hk

/-! ## Claim theorems -/

/-- C5: for every question, requested top-k and mode, the "exact/author"
query-shape rule (whose condition, per the spec, includes not being a
topic search) and the "topic search" rule cannot both fire, and each
rule forces its stated effective top-k (1, respectively the requested
top-k). -/
theorem c5_topk_rules_mutually_exclusive :
    ∀ (question : String) (k : Int) (mode : AnalysisMode),
    ((isExactOrAuthor question (stripStr (lowerStr question)) &&
        !isTopicSearch (stripStr (lowerStr question))) &&
      isTopicSearch (stripStr (lowerStr question))) = false ∧
    ((isExactOrAuthor question (stripStr (lowerStr question)) &&
        !isTopicSearch (stripStr (lowerStr question))) = true →
      select_effective_top_k true question k mode = 1) ∧
    (isTopicSearch (stripStr (lowerStr question)) = true →
      select_effective_top_k true question k mode = k) := by
  intro question k mode
  refine ⟨?_, ?_, ?_⟩
  · cases hts : isTopicSearch (stripStr (lowerStr question)) <;>
      cases hea : isExactOrAuthor question (stripStr (lowerStr question)) <;> simp [hts, hea]
  · intro h
    unfold select_effective_top_k
    rw [if_neg (by decide)]
    dsimp only
    rw [if_pos h]
  · intro h
    have hx : (isExactOrAuthor question (stripStr (lowerStr question)) &&
        !isTopicSearch (stripStr (lowerStr question))) = false := by
      rw [h]
      simp
    unfold select_effective_top_k
    rw [if_neg (by decide)]
    dsimp only
    rw [hx]
    simp [h]

/-- C5 witness: on "list some quotes about courage" the topic-search rule
fires and returns the requested top-k; on "who said that" the
exact/author rule fires and returns 1. -/
theorem c5_witness :
    select_effective_top_k true "list some quotes about courage" 7 AnalysisMode.standard = 7 ∧
    select_effective_top_k true "who said that" 7 AnalysisMode.standard = 1 := by
  constructor
  · exact (c5_topk_rules_mutually_exclusive "list some quotes about courage" 7
      AnalysisMode.standard).2.2 (by decide)
  · exact (c5_topk_rules_mutually_exclusive "who said that" 7
      AnalysisMode.standard).2.1 (by decide)

/-- C10: with `use_enhanced = False` — the constructor default, used by
both module-level singletons — `_select_effective_top_k` returns the
requested top-k unchanged for every question and mode, and the document
pipeline of `process_query` is exactly dedup-then-slice, with no keyword
boosting or re-ranking. -/
theorem c10_default_config_inert :
    ∀ (question : String) (k : Int) (mode : AnalysisMode) (cn : String)
      (dm : AnalysisMode) (kb ab : ℚ) (ia : Bool) (hits : List Hit),
    select_effective_top_k false question k mode = k ∧
    ({} : RAGConfig).use_enhanced = false ∧
    rag_pipeline.use_enhanced = false ∧
    analysis_pipeline.use_enhanced = false ∧
    processDocs ⟨cn, dm, false, kb, ab⟩ question k mode ia hits =
      pyTake k (dedupDocsById (hits.map (fun h => build_search_payload h ia)) []) :=
  fun _ _ _ _ _ _ _ _ _ => ⟨rfl, rfl, rfl, rfl, rfl⟩

/-- C8 (amended): with an empty context-document list the hallucination
score of the fallback answer is exactly 0.35 — for every groundedness
value — and the score that is 0.0 regardless of context is that of the
empty answer, not of the fallback answer. -/
theorem c8_fallback_hallucination :
    ∀ (grounded : ℚ) (ctx : List Doc),
    hallucination_score grounded fallbackAnswer [] = 7/20 ∧
    hallucination_score grounded "" ctx = 0 := by
  intro g ctx
  constructor
  · unfold hallucination_score fallbackAnswer
    rw [if_neg (by decide)]
    simp
  · unfold hallucination_score
    simp

/-- C8 counterexample: the hallucination score of the fallback answer
with the empty context list is not 0.0 (it is 0.35), refuting "0.0
regardless of context". -/
theorem c8_counterexample :
    ¬ hallucination_score 1 fallbackAnswer [] = 0 := by
  unfold hallucination_score fallbackAnswer
  rw [if_neg (by decide)]
  norm_num

/-- C3: on the spec's own scenario — the comparative question with a
single retrieved document — `process_query` does not return the
insufficient-documents message: `_select_prompt_method` never selects
the comparative branch for fewer than two documents, so the pipeline
silently degrades to a standard answer built from the one document,
while the guard inside `_generate_comparative_analysis` that would
produce exactly the required message is unreachable from
`process_query`. -/
theorem c3_comparative_single_doc_divergence :
    (process_query {} (.ok ()) (.ok [hit7]) (.ok "LLM")
        "Compare quotes about leadership and courage" 5 AnalysisMode.comparative true).answer_type
      = "standard_answer" ∧
    (process_query {} (.ok ()) (.ok [hit7]) (.ok "LLM")
        "Compare quotes about leadership and courage" 5 AnalysisMode.comparative true).retrieved_count
      = 1 ∧
    (process_query {} (.ok ()) (.ok [hit7]) (.ok "LLM")
        "Compare quotes about leadership and courage" 5 AnalysisMode.comparative true).answer
      = "LLM" ∧
    select_prompt_method AnalysisMode.comparative
        (process_query {} (.ok ()) (.ok [hit7]) (.ok "LLM")
          "Compare quotes about leadership and courage" 5 AnalysisMode.comparative true).search_results
      ≠ "comparative" ∧
    generate_comparative_analysis "LLM"
        (process_query {} (.ok ()) (.ok [hit7]) (.ok "LLM")
          "Compare quotes about leadership and courage" 5 AnalysisMode.comparative true).search_results
      = "Need at least two quotes for comparative analysis." :=
  ⟨by decide, by decide, by decide, by decide, by decide⟩

/-- The `relevant_retrieved` count of the metrics code is the
cardinality of the intersection of the two id sets. -/
theorem relevantRetrieved_eq_card_inter (r e : List Int) :
    relevantRetrieved r e = (r.toFinset ∩ e.toFinset).card := by
  unfold relevantRetrieved
  have h1 : (r.dedup.filter (fun x => decide (x ∈ e))).Nodup :=
    (List.nodup_dedup r).filter _
  have h2 : (r.dedup.filter (fun x => decide (x ∈ e))).toFinset =
      r.toFinset ∩ e.toFinset := by
    ext x
    simp [List.mem_filter, List.mem_dedup]
  rw [← h2]
  exact (List.toFinset_card_of_nodup h1).symm

/-- C7: precision is the intersection cardinality over the number of
retrieved ids (0 when nothing was retrieved), recall is the intersection
cardinality over the number of expected ids (0 when nothing is
expected), and on retrieved = [1,2,3], expected = [2,3,4] both equal
2/3. -/
theorem c7_precision_recall :
    (∀ (retrieved expected : List Int),
      (retrieved = [] → retrieval_precision retrieved expected = 0) ∧
      (retrieved ≠ [] → retrieval_precision retrieved expected =
        ((retrieved.toFinset ∩ expected.toFinset).card : ℚ) / (retrieved.length : ℚ)) ∧
      (expected = [] → retrieval_recall retrieved expected = 0) ∧
      (expected ≠ [] → retrieval_recall retrieved expected =
        ((retrieved.toFinset ∩ expected.toFinset).card : ℚ) / (expected.length : ℚ))) ∧
    retrieval_precision [1, 2, 3] [2, 3, 4] = 2/3 ∧
    retrieval_recall [1, 2, 3] [2, 3, 4] = 2/3 := by
  have hp : ∀ (r e : List Int), r ≠ [] → retrieval_precision r e =
      ((r.toFinset ∩ e.toFinset).card : ℚ) / (r.length : ℚ) := by
    intro r e h
    unfold retrieval_precision
    rw [if_neg (fun hc => h (List.isEmpty_iff.mp hc))]
    rw [relevantRetrieved_eq_card_inter]
  have hr : ∀ (r e : List Int), e ≠ [] → retrieval_recall r e =
      ((r.toFinset ∩ e.toFinset).card : ℚ) / (e.length : ℚ) := by
    intro r e h
    unfold retrieval_recall
    rw [if_neg (fun hc => h (List.isEmpty_iff.mp hc))]
    rw [relevantRetrieved_eq_card_inter]
  refine ⟨fun r e => ⟨?_, hp r e, ?_, hr r e⟩, ?_, ?_⟩
  · intro h
    subst h
    rfl
  · intro h
    subst h
    rfl
  · rw [hp [1, 2, 3] [2, 3, 4] (by decide)]
    rw [show (([1, 2, 3] : List Int).toFinset ∩ ([2, 3, 4] : List Int).toFinset).card = 2
      from by decide]
    norm_num
  · rw [hr [1, 2, 3] [2, 3, 4] (by decide)]
    rw [show (([1, 2, 3] : List Int).toFinset ∩ ([2, 3, 4] : List Int).toFinset).card = 2
      from by decide]
    norm_num

/-- C7 witness: the nonempty-retrieved formula applied at
retrieved = [1,2,3], expected = [2,3,4], and the empty-retrieved case
applied at retrieved = []. -/
theorem c7_witness :
    retrieval_precision [1, 2, 3] [2, 3, 4] =
      ((([1, 2, 3] : List Int).toFinset ∩ ([2, 3, 4] : List Int).toFinset).card : ℚ) /
        ((([1, 2, 3] : List Int).length : ℚ)) ∧
    retrieval_precision [] [5] = 0 := by
  constructor
  · exact (c7_precision_recall.1 [1, 2, 3] [2, 3, 4]).2.1 (by decide)
  · exact (c7_precision_recall.1 [] [5]).1 rfl

/-- C9 (amended): during the ranking loop of `process_query` only a
record with a missing (or `None`) `id` is skipped — every returned
document carries an id — while a payload missing the `quote` or `author`
key is not skipped: it is kept with the defaults `""` and `"Unknown"`,
and no missing field raises (the document pipeline is a total
function). -/
theorem c9_missing_id_skipped :
    ∀ (cfg : RAGConfig) (question : String) (top_k : Int) (mode : AnalysisMode)
      (ia : Bool) (hits : List Hit),
    (∀ d, d ∈ processDocs cfg question top_k mode ia hits → d.did ≠ none) ∧
    (∀ h : Hit, h.payload.quote = none → (build_search_payload h ia).quote = "") ∧
    (∀ h : Hit, h.payload.author = none → (build_search_payload h ia).author = "Unknown") := by
  intro cfg question top_k mode ia hits
  refine ⟨?_, ?_, ?_⟩
  · intro d hd
    unfold processDocs at hd
    dsimp only at hd
    have hd2 := (pyTake_sublist _ _).subset hd
    by_cases hue : cfg.use_enhanced = true
    · rw [if_pos hue] at hd2
      rcases mem_apply_enhanced_boosting hd2 with ⟨d0, hd0, hdid⟩
      rcases mem_dedupDocsById hd0 with ⟨i, hi, _⟩
      rw [hdid, hi]
      simp
    · rw [if_neg hue] at hd2
      rcases mem_dedupDocsById hd2 with ⟨i, hi, _⟩
      rw [hi]
      simp
  · intro h hq
    simp [build_search_payload, hq]
  · intro h ha
    simp [build_search_payload, ha]

/-- C9 witness: the defaults for a record missing both `quote` and
`author`, obtained from the amended theorem at `malformedHit`. -/
theorem c9_witness :
    (build_search_payload malformedHit true).quote = "" ∧
    (build_search_payload malformedHit true).author = "Unknown" := by
  constructor
  · exact (c9_missing_id_skipped {} "a question" 3 AnalysisMode.standard true
      [malformedHit]).2.1 malformedHit rfl
  · exact (c9_missing_id_skipped {} "a question" 3 AnalysisMode.standard true
      [malformedHit]).2.2 malformedHit rfl

/-- C9 counterexample: a stored record whose payload lacks both the
`quote` and the `author` field is not skipped — it appears in
`search_results` (with defaults filled in), refuting the claim that a
record missing any of id, quote, author is dropped. -/
theorem c9_counterexample :
    malformedHit.payload.quote = none ∧
    malformedHit.payload.author = none ∧
    (process_query {} (.ok ()) (.ok [malformedHit]) (.ok "ans")
        "a question" 3 AnalysisMode.standard true).search_results.map
      (fun d => (d.did, d.quote, d.author)) = [(some 1, "", "Unknown")] :=
  ⟨rfl, rfl, by decide⟩

/-- C2: if any collaborator raises — embedder, vector store, or LLM —
`process_query` still returns a structured response whose
`retrieved_count` is 0, whose `search_results` are empty, and whose
error flag is set; and `search_quotes` returns the empty list when the
embedder or the store raises. -/
theorem c2_exceptions_contained :
    ∀ (cfg : RAGConfig) (embed : Except String Unit)
      (search : Except String (List Hit)) (llm : Except String String)
      (question : String) (top_k : Int) (mode : AnalysisMode) (ia : Bool),
    ((raised embed = true ∨ raised search = true ∨ raised llm = true) →
      (process_query cfg embed search llm question top_k mode ia).retrieved_count = 0 ∧
      (process_query cfg embed search llm question top_k mode ia).search_results = [] ∧
      (process_query cfg embed search llm question top_k mode ia).has_error = true) ∧
    ((raised embed = true ∨ raised search = true) →
      search_quotes cfg embed search question top_k = []) := by
  intro cfg embed search llm question top_k mode ia
  constructor
  · intro h
    cases embed with
    | error e => exact ⟨rfl, rfl, rfl⟩
    | ok u =>
      cases search with
      | error e => exact ⟨rfl, rfl, rfl⟩
      | ok hits =>
        cases llm with
        | error e => exact ⟨rfl, rfl, rfl⟩
        | ok t => rcases h with h | h | h <;> simp [raised] at h
  · intro h
    cases embed with
    | error e => rfl
    | ok u =>
      cases search with
      | error e => rfl
      | ok hits => rcases h with h | h <;> simp [raised] at h

/-- C2 witness: an unreachable embedder yields the structured error
response and an empty `search_quotes` result. -/
theorem c2_witness :
    (process_query {} (.error "connection refused") (.ok []) (.ok "")
        "hello" 3 AnalysisMode.standard true).retrieved_count = 0 ∧
    (process_query {} (.error "connection refused") (.ok []) (.ok "")
        "hello" 3 AnalysisMode.standard true).search_results = [] ∧
    (process_query {} (.error "connection refused") (.ok []) (.ok "")
        "hello" 3 AnalysisMode.standard true).has_error = true ∧
    search_quotes {} (.error "connection refused") (.ok []) "hello" 3 = [] := by
  have h := c2_exceptions_contained {} (.error "connection refused") (.ok [])
    (.ok "") "hello" 3 AnalysisMode.standard true
  have h1 := h.1 (Or.inl rfl)
  exact ⟨h1.1, h1.2.1, h1.2.2, h.2 (Or.inl rfl)⟩

/-- Appending one keyword to the extracted keyword list changes the
boosted score by exactly one `keyword_boost` when the keyword occurs in
the document blob, and not at all otherwise. -/
theorem boostDocScore_append (kb ab : ℚ) (kws : List String) (kw : String)
    (na : Bool) (d : Doc) :
    boostDocScore kb ab (kws ++ [kw]) na d =
      boostDocScore kb ab kws na d +
        (if strContains (docBlob d) kw then kb else 0) := by
  unfold boostDocScore
  dsimp only
  rw [List.foldl_append]
  simp only [List.foldl_cons, List.foldl_nil]
  split_ifs <;> ring

/-- Appending a keyword that occurs in the document content raises the
keyword score of `_calculate_document_score` by at least one. -/
theorem calcKeywordScore_append (p : Payload) (kws : List String) (kw : String)
    (hm : strContains (docContent p) kw = true) :
    (calcKeywordScore p kws).1 + 1 ≤ (calcKeywordScore p (kws ++ [kw])).1 := by
  unfold calcKeywordScore
  rw [List.foldl_append]
  simp only [List.foldl_cons, List.foldl_nil]
  rw [if_pos hm]
  dsimp only
  split_ifs <;> linarith

/-- C6: a freshly matching keyword contributes a non-negative increment
to the fused score, in both scorers: in `_apply_enhanced_boosting` it
adds exactly one (nonnegative) `keyword_boost`, and in
`_calculate_document_score` it raises the final score by at least
`1 * 0.3`. -/
theorem c6_keyword_boost_monotone :
    ∀ (kb ab : ℚ) (kws : List String) (kw : String) (na : Bool) (d : Doc)
      (acfg sem : ℚ) (p : Payload) (intent : Intent),
    0 ≤ kb →
    strContains (docBlob d) kw = true →
    strContains (docContent p) kw = true →
    (boostDocScore kb ab (kws ++ [kw]) na d = boostDocScore kb ab kws na d + kb ∧
     boostDocScore kb ab kws na d ≤ boostDocScore kb ab (kws ++ [kw]) na d) ∧
    (calculate_document_score acfg sem p kws intent).final_score ≤
      (calculate_document_score acfg sem p (kws ++ [kw]) intent).final_score := by
  intro kb ab kws kw na d acfg sem p intent hkb hbd hdc
  have h1 := boostDocScore_append kb ab kws kw na d
  rw [if_pos hbd] at h1
  refine ⟨⟨h1, by rw [h1]; linarith⟩, ?_⟩
  have h2 := calcKeywordScore_append p kws kw hdc
  unfold calculate_document_score
  dsimp only
  linarith

/-- C6 witness: with the default boosts, the keyword "roosevelt" matches
the sample document and adds exactly 0.5 to its boosted score and a
positive amount to its enhancement final score. -/
theorem c6_witness :
    boostDocScore (1/2) (3/10) ["roosevelt"] false doc6 =
      boostDocScore (1/2) (3/10) [] false doc6 + 1/2 ∧
    (calculate_document_score (3/10) 0 payload6 [] retrievalIntent).final_score ≤
      (calculate_document_score (3/10) 0 payload6 ["roosevelt"] retrievalIntent).final_score := by
  have h := c6_keyword_boost_monotone (1/2) (3/10) [] "roosevelt" false doc6
    (3/10) 0 payload6 retrievalIntent (by norm_num) (by decide) (by decide)
  exact ⟨h.1.1, h.2⟩

/-- C1: `process_query` never returns more documents than `used_top_k`
reports, and the returned documents have pairwise distinct ids —
whatever the collaborators return or raise, for any positive requested
top-k, mode, and enhancement configuration. -/
theorem c1_topk_bound_and_unique_ids :
    ∀ (cfg : RAGConfig) (embed : Except String Unit)
      (search : Except String (List Hit)) (llm : Except String String)
      (question : String) (top_k : Int) (mode : AnalysisMode) (ia : Bool),
    1 ≤ top_k →
    (process_query cfg embed search llm question top_k mode ia).search_results.Pairwise
      (fun a b => a.did ≠ b.did) ∧
    ∀ u, (process_query cfg embed search llm question top_k mode ia).used_top_k = some u →
      ((process_query cfg embed search llm question top_k mode ia).search_results.length : Int) ≤ u := by
  intro cfg embed search llm question top_k mode ia htk
  cases embed with
  | error e => exact ⟨List.Pairwise.nil, fun u hu => Option.noConfusion hu⟩
  | ok uu =>
    cases search with
    | error e => exact ⟨List.Pairwise.nil, fun u hu => Option.noConfusion hu⟩
    | ok hits =>
      cases llm with
      | error e => exact ⟨List.Pairwise.nil, fun u hu => Option.noConfusion hu⟩
      | ok t =>
        have hdocs1 : (processDocs cfg question top_k mode ia hits).Pairwise
            (fun a b => a.did ≠ b.did) := by
          unfold processDocs
          dsimp only
          refine List.Pairwise.sublist (pyTake_sublist _ _) ?_
          split_ifs with hue
          · exact pairwise_did_apply_enhanced_boosting _ _ _ _
              (pairwise_dedupDocsById _ _)
          · exact pairwise_dedupDocsById _ _
        have hk0 : 0 ≤ select_effective_top_k cfg.use_enhanced question top_k mode :=
          le_trans (by norm_num) (select_effective_top_k_pos _ _ _ _ htk)
        have hdocs2 : ((processDocs cfg question top_k mode ia hits).length : Int) ≤
            select_effective_top_k cfg.use_enhanced question top_k mode := by
          unfold processDocs
          dsimp only
          exact length_pyTake_le _ _ hk0
        have hsr : (process_query cfg (.ok uu) (.ok hits) (.ok t) question top_k mode ia).search_results =
            processDocs cfg question top_k mode ia hits := by
          unfold process_query
          dsimp only
          split <;> rfl
        have hut : (process_query cfg (.ok uu) (.ok hits) (.ok t) question top_k mode ia).used_top_k =
            some (select_effective_top_k cfg.use_enhanced question top_k mode) := by
          unfold process_query
          dsimp only
          split <;> rfl
        constructor
        · rw [hsr]
          exact hdocs1
        · intro u hu
          rw [hut] at hu
          rw [hsr]
          rw [← Option.some.inj hu]
          exact hdocs2

/-- C1 witness: two identical hits of id 7 at requested top-k 3 yield at
most 3 results (here one after deduplication) with distinct ids, and the
response reports `used_top_k = 3`. -/
theorem c1_witness :
    (process_query {} (.ok ()) (.ok [hit7, hit7]) (.ok "ans") "a question" 3
        AnalysisMode.standard true).used_top_k = some 3 ∧
    ((process_query {} (.ok ()) (.ok [hit7, hit7]) (.ok "ans") "a question" 3
        AnalysisMode.standard true).search_results.length : Int) ≤ 3 ∧
    (process_query {} (.ok ()) (.ok [hit7, hit7]) (.ok "ans") "a question" 3
        AnalysisMode.standard true).search_results.Pairwise (fun a b => a.did ≠ b.did) := by
  have h := c1_topk_bound_and_unique_ids {} (.ok ()) (.ok [hit7, hit7]) (.ok "ans")
    "a question" 3 AnalysisMode.standard true (by norm_num)
  exact ⟨by decide, h.2 3 (by decide), h.1⟩

/-- A left fold whose step only ever appends preserves membership. -/
theorem foldl_keyword_mono {β : Type} (g : List String → β → List String)
    (hg : ∀ kws b x, x ∈ kws → x ∈ g kws b) :
    ∀ (l : List β) (kws : List String) (x : String), x ∈ kws → x ∈ l.foldl g kws := by
  intro l
  induction l with
  | nil => intro kws x hx; simpa using hx
  | cons b rest ih => intro kws x hx; exact ih _ _ (hg kws b x hx)

/-- Membership survives a conditional append. -/
theorem mem_if_append {kws tail : List String} {z : String} (hz : z ∈ kws)
    (c : Bool) : z ∈ (if c = true then kws ++ tail else kws) := by
  split
  · exact List.mem_append_left _ hz
  · exact hz

/-- One author/topic-loop iteration only appends keywords. -/
theorem mem_mappingStep {q : String} {kws : List String}
    {e : String × List String} {x : String} (hx : x ∈ kws) :
    x ∈ mappingStep q kws e := by
  show x ∈ e.2.foldl (fun kws v => if strContains q v then kws ++ [e.1] else kws)
    (if strContains q e.1 then kws ++ e.1 :: e.2 else kws)
  exact foldl_keyword_mono _ (fun kws' b z hz => mem_if_append hz _) e.2 _ x
    (mem_if_append hx _)

/-- The full author/topic loop only appends keywords. -/
theorem mem_mappingFold {q : String} {maps : List (String × List String)}
    {kws : List String} {x : String} (hx : x ∈ kws) :
    x ∈ mappingFold q maps kws :=
  foldl_keyword_mono (mappingStep q) (fun _ _ _ hy => mem_mappingStep hy) maps kws x hx

/-- If a canonical name occurs in the query, the author/topic loop adds
the canonical name and all its variations. -/
theorem mappingFold_adds_canonical {q c : String} {als : List String}
    {maps : List (String × List String)}
    (he : (c, als) ∈ maps) (hc : strContains q c = true) :
    ∀ kws, c ∈ mappingFold q maps kws ∧ ∀ a ∈ als, a ∈ mappingFold q maps kws := by
  induction maps with
  | nil => cases he
  | cons e rest ih =>
    intro kws
    rcases List.mem_cons.mp he with he1 | he1
    · subst he1
      have hstep : ∀ y, y ∈ kws ++ c :: als → y ∈ mappingStep q kws (c, als) := by
        intro y hy
        show y ∈ als.foldl (fun kws v => if strContains q v then kws ++ [c] else kws)
          (if strContains q c then kws ++ c :: als else kws)
        rw [if_pos hc]
        exact foldl_keyword_mono _ (fun kws' b z hz => mem_if_append hz _) als _ y hy
      have hrest : ∀ y, y ∈ mappingStep q kws (c, als) →
          y ∈ mappingFold q ((c, als) :: rest) kws := by
        intro y hy
        show y ∈ rest.foldl (mappingStep q) (mappingStep q kws (c, als))
        exact foldl_keyword_mono (mappingStep q) (fun _ _ _ hz => mem_mappingStep hz) rest _ y hy
      constructor
      · exact hrest c (hstep c (List.mem_append_right _ (List.mem_cons_self _ _)))
      · intro a ha
        exact hrest a (hstep a (List.mem_append_right _ (List.mem_cons_of_mem _ ha)))
    · exact ih he1 (mappingStep q kws e)

/-- The inner variation loop adds the canonical name as soon as one
variation occurs in the query. -/
theorem innerFold_adds {q c a : String} {als : List String}
    (ha : a ∈ als) (hq : strContains q a = true) :
    ∀ init, c ∈ als.foldl
      (fun kws v => if strContains q v then kws ++ [c] else kws) init := by
  induction als with
  | nil => cases ha
  | cons v rest ih =>
    intro init
    simp only [List.foldl_cons]
    rcases List.mem_cons.mp ha with hav | ha1
    · have hqv : strContains q v = true := by rw [← hav]; exact hq
      have h0 : c ∈ (if strContains q v then init ++ [c] else init) := by
        rw [if_pos hqv]
        exact List.mem_append_right _ (List.mem_cons_self _ _)
      exact foldl_keyword_mono _ (fun kws' b z hz => mem_if_append hz _) rest _ c h0
    · exact ih ha1 _

/-- If an alias occurs in the query, the author/topic loop adds the
canonical name. -/
theorem mappingFold_adds_canonical_of_alias {q c a : String} {als : List String}
    {maps : List (String × List String)}
    (he : (c, als) ∈ maps) (ha : a ∈ als) (hq : strContains q a = true) :
    ∀ kws, c ∈ mappingFold q maps kws := by
  induction maps with
  | nil => cases he
  | cons e rest ih =>
    intro kws
    rcases List.mem_cons.mp he with he1 | he1
    · subst he1
      have hstep : c ∈ mappingStep q kws (c, als) := by
        show c ∈ als.foldl (fun kws v => if strContains q v then kws ++ [c] else kws)
          (if strContains q c then kws ++ c :: als else kws)
        exact innerFold_adds ha hq _
      show c ∈ rest.foldl (mappingStep q) (mappingStep q kws (c, als))
      exact foldl_keyword_mono (mappingStep q) (fun _ _ _ hz => mem_mappingStep hz) rest _ c hstep
    · exact ih he1 (mappingStep q kws e)

/-- The residual-noun loop only appends keywords. -/
theorem mem_residualFold {q : String} {kws : List String} {x : String}
    (hx : x ∈ kws) : x ∈ residualFold q kws :=
  foldl_keyword_mono _ (fun _ _ _ hz => mem_if_append hz _) _ _ _ hx

/-- Keywords collected by the author loop survive to the returned
keyword set. -/
theorem mem_extract_of_mem_authorFold {query x : String}
    (hx : x ∈ mappingFold (lowerStr query) authorMappings []) :
    x ∈ (extract_keywords_and_intent query).1 := by
  unfold extract_keywords_and_intent
  dsimp only
  rw [List.mem_dedup]
  exact mem_residualFold (mem_mappingFold hx)

/-- C4 (amended): for every question and every entry of the author-alias
mapping, if the canonical name occurs in the lower-cased question then
the returned keyword set contains the canonical name and all its
aliases; if an alias occurs, the set contains the canonical name (the
remaining aliases are not necessarily added). -/
theorem c4_author_alias_expansion :
    ∀ (query canonical : String) (aliases : List String),
    (canonical, aliases) ∈ authorMappings →
    ((strContains (lowerStr query) canonical = true →
        canonical ∈ (extract_keywords_and_intent query).1 ∧
        ∀ a ∈ aliases, a ∈ (extract_keywords_and_intent query).1) ∧
     (∀ a ∈ aliases, strContains (lowerStr query) a = true →
        canonical ∈ (extract_keywords_and_intent query).1)) := by
  intro query c als he
  constructor
  · intro hc
    have h := mappingFold_adds_canonical he hc []
    exact ⟨mem_extract_of_mem_authorFold h.1,
      fun a ha => mem_extract_of_mem_authorFold (h.2 a ha)⟩
  · intro a ha hq
    exact mem_extract_of_mem_authorFold (mappingFold_adds_canonical_of_alias he ha hq [])

/-- C4 witness: "roosevelt" occurs in the question, so the alias
"franklin" is in the keyword set. -/
theorem c4_witness :
    "franklin" ∈ (extract_keywords_and_intent "roosevelt said it").1 := by
  have h := c4_author_alias_expansion "roosevelt said it" "roosevelt"
    ["franklin", "fdr", "eleanor"] (by decide)
  exact (h.1 (by decide)).2 "franklin" (by decide)

/-- C4 counterexample: the alias "fdr" occurs in the lower-cased
question "what did fdr say", yet the fellow alias "franklin" is not in
the returned keyword set — only the canonical name is added on an alias
match, refuting "contains both the canonical name and all of its
aliases". -/
theorem c4_counterexample :
    ("roosevelt", ["franklin", "fdr", "eleanor"]) ∈ authorMappings ∧
    strContains (lowerStr "what did fdr say") "fdr" = true ∧
    "fdr" ∈ ["franklin", "fdr", "eleanor"] ∧
    ¬ "franklin" ∈ (extract_keywords_and_intent "what did fdr say").1 :=
  ⟨by decide, by decide, by decide, by decide⟩

end RagGates
